import Mathlib

/-!
Shallow embedding of `food_delivery_agent.py` (uayushdubey/Food_Automation).

The embedding models the pure data model (`SearchRequest`, `ItemResult`,
`PlatformReport`, `RunReport`), the scatter-gather orchestrator
(`CAPManager.parallel_search_handlers`), the consistent-commit coordinator
(`CAPManager.add_to_cart_consistent`), the best-offer selection inlined in
`FoodDeliveryAgent.run`, the card-processing filters of both platform
handlers, and the exit-code computation of `main`.

Modelling conventions:
  * Python `float` prices and ratings are modelled as `ℚ` (exact arithmetic;
    the claims under scrutiny only involve comparisons and short decimal
    arithmetic that is exact in both representations).
  * Python `None` becomes `Option.none`; Python truthiness of an optional
    float (`if x:`) is `x is not None and x != 0`, modelled by `qTruthy`.
  * Python string operations used by the code (`str.strip`, `str.lower`,
    substring membership `a in b`) are modelled by executable primitives
    `pyStrip`, `lowerStr`, `strContains` over the character list of the
    string.
  * The browser-driven adapter operations (navigation, DOM extraction,
    `add_item_to_cart`, `verify_cart_contains`, `remove_item_from_cart`)
    are I/O at the boundary of the modelled core; they are abstracted as
    per-attempt / per-search outcome parameters, exactly at the granularity
    the control flow of the Python code distinguishes them (returned
    normally / raised / timed out, verification true / false).
  * Mutation of report objects is modelled by explicit state passing; the
    coordinator's observable actions are recorded in an event trace.
-/

/-! ## String primitives (models of the Python string operations used) -/

/-- Characters-level both-ends whitespace strip, model of Python `str.strip()`. -/
def stripChars (l : List Char) : List Char :=
  ((l.dropWhile Char.isWhitespace).reverse.dropWhile Char.isWhitespace).reverse

/-- Model of Python `str.strip()`. -/
def pyStrip (s : String) : String := ⟨stripChars s.data⟩

/-- Model of Python `str.lower()` (ASCII-level, which covers every string the
program compares: platform names and fixed error labels). -/
def lowerStr (s : String) : String := ⟨s.data.map Char.toLower⟩

/-- Does the first list begin the second one? -/
def listStartsWith : List Char → List Char → Bool
  | [], _ => true
  | _ :: _, [] => false
  | a :: as, b :: bs => a == b && listStartsWith as bs

/-- Does `sub` occur as a contiguous run inside the second list? -/
def listContainsRun (sub : List Char) : List Char → Bool
  | [] => sub.isEmpty
  | c :: t => listStartsWith sub (c :: t) || listContainsRun sub t

/-- Model of Python substring membership `sub in hay`. -/
def strContains (hay sub : String) : Bool := listContainsRun sub.data hay.data

/-- Python truthiness of an optional float: `None` and `0.0` are falsy. -/
def qTruthy : Option ℚ → Bool
  | none => false
  | some q => q != 0

/-- Round half to even to an integer, the rounding mode of Python `round`. -/
def roundHalfEven (q : ℚ) : ℤ :=
  let n : ℤ := ⌊q⌋
  let frac : ℚ := q - n
  if frac < 1/2 then n
  else if 1/2 < frac then n + 1
  else if n % 2 = 0 then n else n + 1

/-- Model of Python `round(x, 2)`. -/
def round2 (q : ℚ) : ℚ := (roundHalfEven (q * 100) : ℚ) / 100

/-! ## Data model (source lines 89-171) -/

/-- Embeds dataclass `SearchRequest` (lines 93-106), after `__post_init__`
has normalised `food_items`. -/
structure SearchRequest where
  food_items : List String
  min_rating : ℚ := 38/10
  price_min : Option ℚ := none
  price_max : Option ℚ := none
  max_results_per_platform : Nat := 5
  location : Option String := none
deriving DecidableEq

/-- Embeds `SearchRequest.__post_init__` (lines 103-106): strip each item,
drop blank items, fail when nothing is left. -/
def mkSearchRequest (food_items : List String) (min_rating : ℚ)
    (price_min price_max : Option ℚ) (max_results_per_platform : Nat)
    (location : Option String) : Except String SearchRequest :=
  let items := (food_items.map pyStrip).filter (fun s => !s.data.isEmpty)
  if items.isEmpty then
    Except.error "At least one food item is required"
  else
    Except.ok { food_items := items, min_rating := min_rating,
                price_min := price_min, price_max := price_max,
                max_results_per_platform := max_results_per_platform,
                location := location }

/-- Embeds dataclass `ItemResult` (lines 108-120); the `timestamp` field is
an uninterpreted string. -/
structure ItemResult where
  restaurant_name : String
  rating : Option ℚ
  item_name : String
  item_price : Option ℚ
  final_price : Option ℚ
  discount_percentage : Option ℚ
  coupon_applied : Option String
  platform : String
  url : Option String := none
  timestamp : String := ""
deriving DecidableEq

/-- Embeds `ItemResult.calculate_discount` (lines 122-127).  The Python guard
is `if self.item_price and self.final_price and self.item_price > 0:` —
truthiness, so a price equal to 0 (or `None`) skips the recomputation and the
field keeps whatever value it had. -/
def calculate_discount (r : ItemResult) : ItemResult :=
  if qTruthy r.item_price && qTruthy r.final_price
      && decide (0 < r.item_price.getD 0) then
    { r with discount_percentage := some (round2
        ((r.item_price.getD 0 - r.final_price.getD 0)
          / r.item_price.getD 0 * 100)) }
  else r

/-- Embeds dataclass `PlatformReport` (lines 129-138). -/
structure PlatformReport where
  platform : String
  items_found : Nat
  successful_additions : Nat
  errors : List String := []
  results : List ItemResult := []
  available : Bool := true
  latency_ms : Option ℚ := none
deriving DecidableEq

/-- Report state at handler construction (`BasePlatformHandler.__init__`,
line 426): platform set to the handler class name, counters zero, default
field values. -/
def freshReport (platformName : String) : PlatformReport :=
  { platform := platformName, items_found := 0, successful_additions := 0 }

/-- Embeds dataclass `RunReport` (lines 140-149); timestamps are dropped and
`execution_time_seconds` is an uninterpreted duration. -/
structure RunReport where
  search_request : SearchRequest
  platforms_processed : List String
  total_options : Nat
  best_deal : Option ItemResult
  platform_reports : List PlatformReport
  execution_time_seconds : ℚ
deriving DecidableEq

/-! ## Scatter-gather orchestrator (`CAPManager.parallel_search_handlers`,
source lines 261-294) -/

/-- Outcome of one handler's `initialize(); wait_for(search_items(), timeout)`
sequence, at the granularity the `run_handler` closure distinguishes
(lines 266-285).  A search that is interrupted (timeout or raised failure) may
already have appended card/search error strings and bumped
`successful_additions` on its report — those are the only report fields
`search_items` mutates before its final lines (518-519 / 730-731 assign
`items_found` and `results` only on completion, with no suspension point
between the assignment and the return) — so the interrupted constructors carry
those in-flight mutations. -/
inductive SearchOutcome
  | completes (offers : List ItemResult) (searchErrors : List String)
      (searchSucc : Nat)
  | timesOut (msg : String) (interruptErrors : List String)
      (interruptSucc : Nat)
  | fails (msg : String) (interruptErrors : List String) (interruptSucc : Nat)
deriving DecidableEq

/-- One handler as the orchestrator sees it: its report at task start, the
outcome of its initialize-and-search, and the elapsed wall time recorded as
latency. -/
structure HandlerInput where
  report : PlatformReport
  outcome : SearchOutcome
  elapsedMs : ℚ
deriving DecidableEq

/-- Embeds the `run_handler` closure (lines 266-285): on completion mark the
report available and record latency (`search_items` itself stored the results
and their count, lines 518-519); on `asyncio.TimeoutError` mark unavailable,
append `"Timeout: " + str(e)`, return zero offers; on any other raised failure
mark unavailable, append `str(e)`, return zero offers. -/
def run_handler (inp : HandlerInput) : List ItemResult × PlatformReport :=
  match inp.outcome with
  | .completes offers errs succ =>
      (offers,
        { inp.report with
            errors := inp.report.errors ++ errs
            successful_additions := inp.report.successful_additions + succ
            items_found := offers.length
            results := offers
            available := true
            latency_ms := some inp.elapsedMs })
  | .timesOut msg errs succ =>
      ([],
        { inp.report with
            errors := inp.report.errors ++ errs ++ ["Timeout: " ++ msg]
            successful_additions := inp.report.successful_additions + succ
            available := false
            latency_ms := some inp.elapsedMs })
  | .fails msg errs succ =>
      ([],
        { inp.report with
            errors := inp.report.errors ++ errs ++ [msg]
            successful_additions := inp.report.successful_additions + succ
            available := false
            latency_ms := some inp.elapsedMs })

/-- Embeds `CAPManager.parallel_search_handlers` (lines 287-294): gather the
per-handler pairs, concatenate all result lists in handler order, collect the
reports in handler order. -/
def parallel_search_handlers (inputs : List HandlerInput) :
    List ItemResult × List PlatformReport :=
  let pairs := inputs.map run_handler
  ((pairs.map Prod.fst).flatten, pairs.map Prod.snd)

/-! ## Consistent-commit coordinator (`CAPManager.add_to_cart_consistent`,
source lines 296-354) -/

/-- Embeds enum `CAPMode` (lines 245-248). -/
inductive CAPMode
  | availability_first
  | consistency_first
deriving DecidableEq

/-- Outcome of one iteration of the coordinator's try-block, at the
granularity its control flow distinguishes (lines 311-351): an exception
raised before the adapter's add is invoked (e.g. `add_item_to_cart` missing,
line 315), the add itself raising, the verification step raising after a
successful add, the compensation call raising after a failed verification
(the `except` branch then backs off and continues in either mode), or the
add completing with a verification verdict and a completing compensation on
the failing side. -/
inductive AttemptResult
  | raisesBeforeApply (msg : String)
  | applyRaises (msg : String)
  | verifyRaises (msg : String)
  | compensateRaises (msg : String)
  | applied (verified : Bool)
deriving DecidableEq

/-- Observable actions of one coordinator invocation, in order: the adapter's
add called with a token (line 317), the verification verdict (lines 319-324),
a compensation — `remove_item_from_cart` or the generic `_fallback_remove`,
exactly one of the two (lines 332-336) — and a failure reason being recorded
(the warning log plus the `last_exc` assignment of the attempt,
lines 338 and 346-348). -/
inductive CartEvent
  | applyCall (token : String)
  | verify (ok : Bool)
  | compensate
  | failReason (msg : String)
deriving DecidableEq

/-- Predicate picking out adapter-apply events. -/
def CartEvent.isApply : CartEvent → Bool
  | .applyCall _ => true
  | _ => false

/-- Predicate picking out failed-verification events. -/
def CartEvent.isVerifyFalse : CartEvent → Bool
  | .verify false => true
  | _ => false

/-- Predicate picking out compensation events. -/
def CartEvent.isCompensate : CartEvent → Bool
  | .compensate => true
  | _ => false

/-- Predicate picking out recorded-failure-reason events. -/
def CartEvent.isFailReason : CartEvent → Bool
  | .failReason _ => true
  | _ => false

/-- Embeds the `while attempt < max_attempts` loop of
`add_to_cart_consistent` (lines 309-354), parameterised by the adapter's
behaviour on each attempt (1-based attempt number) and driven by the number
of remaining iterations.  Returns the function's boolean result paired with
the trace of observable events.  Branches mirror the source: verified → bump
`successful_additions` is a report effect handled by the caller model, return
`True`; verification failed → exactly one compensation, record the reason,
then retry only in consistency-first mode (lines 339-344); any raised
exception → record the reason, back off, retry (lines 346-351); loop
exhausted → return `False` (line 354). -/
def cart_step (mode : CAPMode) (token : String) (res : AttemptResult)
    (rest : Bool × List CartEvent) : Bool × List CartEvent :=
  match res with
  | .raisesBeforeApply msg =>
      (rest.1, CartEvent.failReason msg :: rest.2)
  | .applyRaises msg =>
      (rest.1, CartEvent.applyCall token :: CartEvent.failReason msg :: rest.2)
  | .verifyRaises msg =>
      (rest.1, CartEvent.applyCall token :: CartEvent.failReason msg :: rest.2)
  | .compensateRaises msg =>
      (rest.1, CartEvent.applyCall token :: CartEvent.verify false ::
        CartEvent.compensate :: CartEvent.failReason msg :: rest.2)
  | .applied true =>
      (true, [CartEvent.applyCall token, CartEvent.verify true])
  | .applied false =>
      match mode with
      | .consistency_first =>
          (rest.1, CartEvent.applyCall token :: CartEvent.verify false ::
            CartEvent.compensate ::
            CartEvent.failReason "Verification failed after add" :: rest.2)
      | .availability_first =>
          (false, [CartEvent.applyCall token, CartEvent.verify false,
            CartEvent.compensate,
            CartEvent.failReason "Verification failed after add"])

/-- Iterates `cart_step` for the remaining attempts; the terminal branches of
`cart_step` discard the continuation, so a verified add (or an
availability-first break) ends the trace exactly where the Python loop
returns. -/
def cart_loop (mode : CAPMode) (behavior : Nat → AttemptResult)
    (token : String) (attempt remaining : Nat) : Bool × List CartEvent :=
  match remaining with
  | 0 => (false, [])
  | r + 1 =>
      cart_step mode token (behavior (attempt + 1))
        (cart_loop mode behavior token (attempt + 1) r)

/-- Embeds `CAPManager.add_to_cart_consistent` (lines 296-354): one
idempotency token is generated before the loop (line 305, modelled as the
`token` argument since `uuid4` is environment input) and the loop starts at
attempt 0 with `max_attempts` iterations available. -/
def add_to_cart_consistent (mode : CAPMode) (behavior : Nat → AttemptResult)
    (token : String) (max_attempts : Nat) : Bool × List CartEvent :=
  cart_loop mode behavior token 0 max_attempts

/-! ## Best-offer selection (inlined in `FoodDeliveryAgent.run`,
source lines 936-941) -/

/-- Embeds Python `min(iterable, key=...)` over a nonempty list, fed an
initial candidate and the remaining elements: keep the current candidate
unless a strictly smaller key appears, so the first minimum wins. -/
def pyMinBy (key : ItemResult → ℚ) (acc : ItemResult) :
    List ItemResult → ItemResult
  | [] => acc
  | x :: xs => pyMinBy key (if key x < key acc then x else acc) xs

/-- Embeds lines 937-941 of `FoodDeliveryAgent.run`: `best_deal = None`;
if any results, filter to those with `final_price is not None`; if any
remain, `best_deal = min(valid_results, key=lambda x: x.final_price)`. -/
def find_best_deal (all_results : List ItemResult) : Option ItemResult :=
  match all_results with
  | [] => none
  | _ =>
    match all_results.filter (fun r => r.final_price.isSome) with
    | [] => none
    | v :: vs => some (pyMinBy (fun r => r.final_price.getD 0) v vs)

/-! ## Handler card processing (`SwiggyHandler._process_card` lines 522-581,
`ZomatoHandler._process_card` lines 734-785) -/

/-- Embeds the rating gate `if rating and rating < self.request.min_rating:`
(lines 540 and 748): a card is rejected on rating grounds only when the
extracted rating is truthy (present and nonzero) and strictly below the
requested minimum. -/
def rating_filter_rejects (min_rating : ℚ) (rating : Option ℚ) : Bool :=
  qTruthy rating && decide (rating.getD 0 < min_rating)

/-- Embeds the price gate (lines 551-555 and 757-761): applied only when the
extracted price is truthy, and each bound only when itself truthy. -/
def price_filter_rejects (req : SearchRequest) (price : Option ℚ) : Bool :=
  (qTruthy price && qTruthy req.price_min
      && decide (price.getD 0 < req.price_min.getD 0))
  || (qTruthy price && qTruthy req.price_max
      && decide (req.price_max.getD 0 < price.getD 0))

/-- Shared decision pipeline of both handlers' `_process_card`, parameterised
by the already-extracted card fields (name, rating, price, url — the DOM
extraction itself is adapter I/O outside the modelled core) and the platform
label the handler stamps on the result.  On passing both gates it builds the
`ItemResult` exactly as lines 564-574 / 768-778 do: `final_price` starts as
the observed price and `discount_percentage` as the number 0. -/
def process_card (req : SearchRequest) (platformLabel : String)
    (name : String) (rating : Option ℚ) (price : Option ℚ)
    (url : Option String) (food_item : String) : Option ItemResult :=
  if rating_filter_rejects req.min_rating rating then none
  else if price_filter_rejects req price then none
  else some
    { restaurant_name := pyStrip name
      rating := rating
      item_name := food_item
      item_price := price
      final_price := price
      discount_percentage := some 0
      coupon_applied := none
      platform := platformLabel
      url := url }

/-- Embeds `SwiggyHandler._process_card` (lines 522-581); stamps
`Platform.SWIGGY.value`. -/
def swiggy_process_card (req : SearchRequest) (name : String)
    (rating : Option ℚ) (price : Option ℚ) (url : Option String)
    (food_item : String) : Option ItemResult :=
  process_card req "Swiggy" name rating price url food_item

/-- Embeds `ZomatoHandler._process_card` (lines 734-785); stamps
`Platform.ZOMATO.value`. -/
def zomato_process_card (req : SearchRequest) (name : String)
    (rating : Option ℚ) (price : Option ℚ) (url : Option String)
    (food_item : String) : Option ItemResult :=
  process_card req "Zomato" name rating price url food_item

/-! ## The main run pipeline (`FoodDeliveryAgent.run`, source lines 911-979,
and the exit computation of `main`, line 1227) -/

/-- Embeds the handler lookup of lines 948-953: lowercase the winning offer's
platform string and pick the Swiggy handler if it contains `"swiggy"`, else
the Zomato handler if it contains `"zomato"`. -/
inductive HandlerId
  | swiggy
  | zomato
deriving DecidableEq

/-- Embeds lines 948-953 of `FoodDeliveryAgent.run`. -/
def handler_for_platform (platform : String) : Option HandlerId :=
  let pl := lowerStr platform
  if strContains pl "swiggy" then some HandlerId.swiggy
  else if strContains pl "zomato" then some HandlerId.zomato
  else none

/-- Report effects of the commit phase (lines 955-963 plus the
`successful_additions += 1` of line 328, which mutates the winning handler's
report object aliased inside `reports`): on a verified add, the winning
handler's report counter is bumped; on failure, the string
`"Consistent add-to-cart failed"` is appended to every report whose lowered
platform name contains the lowered platform of the best deal. -/
def commit_report_update (best : ItemResult) (hid : HandlerId)
    (added_ok : Bool) (reports : List PlatformReport) : List PlatformReport :=
  if added_ok then
    reports.map (fun pr =>
      if pr.platform = (match hid with
          | HandlerId.swiggy => "SwiggyHandler"
          | HandlerId.zomato => "ZomatoHandler") then
        { pr with successful_additions := pr.successful_additions + 1 }
      else pr)
  else
    reports.map (fun pr =>
      if !pr.platform.data.isEmpty
          && strContains (lowerStr pr.platform) (lowerStr best.platform) then
        { pr with errors := pr.errors ++ ["Consistent add-to-cart failed"] }
      else pr)

/-- Stage one of `FoodDeliveryAgent.run` (lines 918-934): construct the two
handlers with fresh reports named after their classes (line 426), run the
availability-first orchestrator over both, then apply `calculate_discount` in
place to every collected result (lines 933-934; the result objects are
aliased inside the per-platform reports, so the reports see the same
recomputation). -/
def agent_gather (swiggyOutcome zomatoOutcome : SearchOutcome)
    (swiggyMs zomatoMs : ℚ) : List ItemResult × List PlatformReport :=
  let inputs : List HandlerInput :=
    [ { report := freshReport "SwiggyHandler", outcome := swiggyOutcome,
        elapsedMs := swiggyMs },
      { report := freshReport "ZomatoHandler", outcome := zomatoOutcome,
        elapsedMs := zomatoMs } ]
  let gathered := parallel_search_handlers inputs
  (gathered.1.map calculate_discount,
    gathered.2.map (fun pr =>
      { pr with results := pr.results.map calculate_discount }))

/-- Stage two of `FoodDeliveryAgent.run` (lines 944-963): when a best deal
exists and its platform maps to a handler, run the consistency-first commit
coordinator with `max_attempts=3` and fold its outcome into the reports. -/
def agent_commit_phase (best_deal : Option ItemResult)
    (commitBehavior : Nat → AttemptResult) (token : String)
    (reports : List PlatformReport) : List PlatformReport :=
  match best_deal with
  | none => reports
  | some best =>
    match handler_for_platform best.platform with
    | none => reports
    | some hid =>
        commit_report_update best hid
          (add_to_cart_consistent CAPMode.consistency_first commitBehavior
            token 3).1 reports

/-- Embeds `FoodDeliveryAgent.run` (lines 911-979) as the composition of the
gather stage, best-deal selection (lines 936-941), the commit stage and the
report assembly (lines 968-975).  The adapter-side behaviour of the commit is
the `commitBehavior` parameter and the generated uuid token is the `token`
parameter; `execTime` stands for the measured wall-clock duration. -/
def agent_run (req : SearchRequest)
    (swiggyOutcome zomatoOutcome : SearchOutcome) (swiggyMs zomatoMs : ℚ)
    (commitBehavior : Nat → AttemptResult) (token : String)
    (execTime : ℚ) : RunReport :=
  let gathered := agent_gather swiggyOutcome zomatoOutcome swiggyMs zomatoMs
  let best_deal := find_best_deal gathered.1
  let reports2 := agent_commit_phase best_deal commitBehavior token gathered.2
  { search_request := req
    platforms_processed := reports2.map (fun pr => pr.platform)
    total_options := gathered.1.length
    best_deal := best_deal
    platform_reports := reports2
    execution_time_seconds := execTime }

/-- Embeds line 1227 of `main`:
`sys.exit(0 if report.total_options > 0 else 1)`. -/
def exit_code (report : RunReport) : Nat :=
  if report.total_options > 0 then 0 else 1

/-- Embeds the front-end flow of `main` (lines 1198-1227) for the `--items`
path: build the `SearchRequest` first; only when construction succeeds is the
agent run (so a validation failure is surfaced before any source is
contacted). -/
def main_flow (items : List String) (min_rating : ℚ)
    (price_min price_max : Option ℚ) (max_results : Nat)
    (location : Option String)
    (swiggyOutcome zomatoOutcome : SearchOutcome) (swiggyMs zomatoMs : ℚ)
    (commitBehavior : Nat → AttemptResult) (token : String)
    (execTime : ℚ) : Except String RunReport :=
  match mkSearchRequest items min_rating price_min price_max max_results
      location with
  | Except.error e => Except.error e
  | Except.ok req =>
      Except.ok (agent_run req swiggyOutcome zomatoOutcome swiggyMs zomatoMs
        commitBehavior token execTime)

/-- Offer used to instantiate the best-offer selection theorem. -/
def bestWitnessA : ItemResult :=
  { restaurant_name := "A", rating := none, item_name := "pizza",
    item_price := some 300, final_price := some 250,
    discount_percentage := none, coupon_applied := none, platform := "Swiggy" }

/-- Offer with no known final price, used alongside `bestWitnessA`. -/
def bestWitnessB : ItemResult :=
  { bestWitnessA with restaurant_name := "B", final_price := none,
                      platform := "Zomato" }

/-- Offer used to instantiate the exit-status theorem: a Swiggy offer with a
known final price and no observed price. -/
def exitWitnessOffer : ItemResult :=
  { restaurant_name := "R", rating := none, item_name := "pizza",
    item_price := none, final_price := some 100,
    discount_percentage := none, coupon_applied := none,
    platform := "Swiggy", url := none }

/-! ## Shared lemmas -/

/-- Every adapter-apply event in a coordinator trace carries the token the
coordinator generated before its loop. -/
theorem cart_loop_token (mode : CAPMode) (behavior : Nat → AttemptResult)
    (tok : String) :
    ∀ (maxA attempt : Nat) (t : String),
      CartEvent.applyCall t ∈ (cart_loop mode behavior tok attempt maxA).2 →
        t = tok := by
  intro maxA
  induction maxA with
  | zero => intro attempt t h; simp [cart_loop] at h
  | succ r ih =>
    intro attempt t h
    rw [cart_loop] at h
    rcases hb : behavior (attempt + 1) with msg | msg | msg | msg | v
    · rw [hb] at h
      simp only [cart_step, List.mem_cons] at h
      rcases h with h | h
      · exact absurd h (by simp)
      · exact ih (attempt + 1) t h
    · rw [hb] at h
      simp only [cart_step, List.mem_cons] at h
      rcases h with h | h | h
      · cases h; rfl
      · exact absurd h (by simp)
      · exact ih (attempt + 1) t h
    · rw [hb] at h
      simp only [cart_step, List.mem_cons] at h
      rcases h with h | h | h
      · cases h; rfl
      · exact absurd h (by simp)
      · exact ih (attempt + 1) t h
    · rw [hb] at h
      simp only [cart_step, List.mem_cons] at h
      rcases h with h | h | h | h | h
      · cases h; rfl
      · exact absurd h (by simp)
      · exact absurd h (by simp)
      · exact absurd h (by simp)
      · exact ih (attempt + 1) t h
    · rw [hb] at h
      cases v with
      | true =>
        simp only [cart_step, List.mem_cons] at h
        rcases h with h | h | h
        · cases h; rfl
        · exact absurd h (by simp)
        · simp at h
      | false =>
        cases mode with
        | consistency_first =>
          simp only [cart_step, List.mem_cons] at h
          rcases h with h | h | h | h | h
          · cases h; rfl
          · exact absurd h (by simp)
          · exact absurd h (by simp)
          · exact absurd h (by simp)
          · exact ih (attempt + 1) t h
        | availability_first =>
          simp only [cart_step, List.mem_cons] at h
          rcases h with h | h | h | h | h
          · cases h; rfl
          · exact absurd h (by simp)
          · exact absurd h (by simp)
          · exact absurd h (by simp)
          · simp at h

/-- In every coordinator trace, a failed-verification event is immediately
followed by a compensation event, and compensations and failed verifications
are in bijection. -/
theorem cart_loop_compensation (mode : CAPMode)
    (behavior : Nat → AttemptResult) (tok : String) :
    ∀ (maxA attempt : Nat),
      (∀ i : Nat,
        ((cart_loop mode behavior tok attempt maxA).2)[i]?
            = some (CartEvent.verify false) →
        ((cart_loop mode behavior tok attempt maxA).2)[i + 1]?
            = some CartEvent.compensate)
      ∧ (cart_loop mode behavior tok attempt maxA).2.countP
            CartEvent.isCompensate
          = (cart_loop mode behavior tok attempt maxA).2.countP
            CartEvent.isVerifyFalse := by
  intro maxA
  induction maxA with
  | zero =>
    intro attempt
    constructor
    · intro i h; simp [cart_loop] at h
    · simp [cart_loop]
  | succ r ih =>
    intro attempt
    rw [cart_loop]
    rcases hb : behavior (attempt + 1) with msg | msg | msg | msg | v
    · simp only [cart_step]
      constructor
      · intro i h
        rcases i with _ | i
        · simp at h
        · simp only [List.getElem?_cons_succ] at h ⊢
          exact (ih (attempt + 1)).1 i h
      · simp [List.countP_cons, CartEvent.isCompensate,
          CartEvent.isVerifyFalse, (ih (attempt + 1)).2]
    · simp only [cart_step]
      constructor
      · intro i h
        rcases i with _ | _ | i
        · simp at h
        · simp at h
        · simp only [List.getElem?_cons_succ] at h ⊢
          exact (ih (attempt + 1)).1 i h
      · simp [List.countP_cons, CartEvent.isCompensate,
          CartEvent.isVerifyFalse, (ih (attempt + 1)).2]
    · simp only [cart_step]
      constructor
      · intro i h
        rcases i with _ | _ | i
        · simp at h
        · simp at h
        · simp only [List.getElem?_cons_succ] at h ⊢
          exact (ih (attempt + 1)).1 i h
      · simp [List.countP_cons, CartEvent.isCompensate,
          CartEvent.isVerifyFalse, (ih (attempt + 1)).2]
    · simp only [cart_step]
      constructor
      · intro i h
        rcases i with _ | _ | _ | _ | i
        · simp at h
        · simp
        · simp at h
        · simp at h
        · simp only [List.getElem?_cons_succ] at h ⊢
          exact (ih (attempt + 1)).1 i h
      · simp [List.countP_cons, CartEvent.isCompensate,
          CartEvent.isVerifyFalse, (ih (attempt + 1)).2]
    · cases v with
      | true =>
        simp only [cart_step]
        constructor
        · intro i h
          rcases i with _ | _ | i
          · simp at h
          · simp at h
          · simp at h
        · simp [List.countP_cons, CartEvent.isCompensate,
            CartEvent.isVerifyFalse]
      | false =>
        cases mode with
        | consistency_first =>
          simp only [cart_step]
          constructor
          · intro i h
            rcases i with _ | _ | _ | _ | i
            · simp at h
            · simp
            · simp at h
            · simp at h
            · simp only [List.getElem?_cons_succ] at h ⊢
              exact (ih (attempt + 1)).1 i h
          · simp [List.countP_cons, CartEvent.isCompensate,
              CartEvent.isVerifyFalse, (ih (attempt + 1)).2]
        | availability_first =>
          simp only [cart_step]
          constructor
          · intro i h
            rcases i with _ | _ | _ | _ | i
            · simp at h
            · simp
            · simp at h
            · simp at h
            · simp at h
          · simp [List.countP_cons, CartEvent.isCompensate,
              CartEvent.isVerifyFalse]

/-- The selected minimum's key never exceeds the initial candidate's key. -/
theorem pyMinBy_le_acc (key : ItemResult → ℚ) :
    ∀ (l : List ItemResult) (a : ItemResult),
      key (pyMinBy key a l) ≤ key a := by
  intro l
  induction l with
  | nil => intro a; simp [pyMinBy]
  | cons x xs ih =>
    intro a
    rw [pyMinBy]
    by_cases hx : key x < key a
    · rw [if_pos hx]
      exact le_of_lt (lt_of_le_of_lt (ih x) hx)
    · rw [if_neg hx]
      exact ih a

/-- Python's stable `min` decomposition: the selected element splits the
candidate list into a prefix of strictly larger keys and a suffix of keys at
least as large, so the first minimum wins. -/
theorem pyMinBy_decomp (key : ItemResult → ℚ) :
    ∀ (l : List ItemResult) (a : ItemResult),
      ∃ pre post, a :: l = pre ++ pyMinBy key a l :: post
        ∧ (∀ x ∈ pre, key (pyMinBy key a l) < key x)
        ∧ (∀ x ∈ post, key (pyMinBy key a l) ≤ key x) := by
  intro l
  induction l with
  | nil =>
    intro a
    exact ⟨[], [], by simp [pyMinBy], by simp, by simp⟩
  | cons x xs ih =>
    intro a
    rw [pyMinBy]
    by_cases hx : key x < key a
    · rw [if_pos hx]
      obtain ⟨pre, post, hdec, hpre, hpost⟩ := ih x
      refine ⟨a :: pre, post, ?_, ?_, hpost⟩
      · rw [List.cons_append]
        exact congrArg (List.cons a) hdec
      · intro z hz
        rcases List.mem_cons.mp hz with rfl | hz2
        · exact lt_of_le_of_lt (pyMinBy_le_acc key xs x) hx
        · exact hpre z hz2
    · rw [if_neg hx]
      have hax : key a ≤ key x := not_lt.mp hx
      obtain ⟨pre, post, hdec, hpre, hpost⟩ := ih a
      rcases pre with _ | ⟨y, pre'⟩
      · rw [List.nil_append] at hdec
        have hma : pyMinBy key a xs = a :=
          (((List.cons.injEq _ _ _ _).mp hdec).1).symm
        have hxs : xs = post := ((List.cons.injEq _ _ _ _).mp hdec).2
        refine ⟨[], x :: xs, by simp [hma], by simp, ?_⟩
        intro z hz
        rw [hma]
        rcases List.mem_cons.mp hz with rfl | hz2
        · exact hax
        · rw [hxs] at hz2
          have := hpost z hz2
          rwa [hma] at this
      · rw [List.cons_append] at hdec
        have hay : a = y := ((List.cons.injEq _ _ _ _).mp hdec).1
        have hxs : xs = pre' ++ pyMinBy key a xs :: post :=
          ((List.cons.injEq _ _ _ _).mp hdec).2
        have hma : key (pyMinBy key a xs) < key a := by
          have := hpre y (by simp)
          rwa [← hay] at this
        refine ⟨a :: x :: pre', post, ?_, ?_, hpost⟩
        · rw [List.cons_append, List.cons_append]
          exact congrArg (List.cons a) (congrArg (List.cons x) hxs)
        · intro z hz
          rcases List.mem_cons.mp hz with rfl | hz2
          · exact hma
          · rcases List.mem_cons.mp hz2 with rfl | hz3
            · exact lt_of_lt_of_le hma hax
            · exact hpre z (by simp [hz3])

/-- A handler task whose report starts with no stored results contributes
exactly as many offers as its final report stores. -/
theorem run_handler_length (inp : HandlerInput)
    (h : inp.report.results = []) :
    (run_handler inp).1.length = (run_handler inp).2.results.length := by
  rcases hout : inp.outcome with o | m | m <;> simp [run_handler, hout, h]

/-- Unfolding of the orchestrator over a cons cell. -/
theorem parallel_cons (i : HandlerInput) (rest : List HandlerInput) :
    parallel_search_handlers (i :: rest)
      = ((run_handler i).1 ++ (parallel_search_handlers rest).1,
         (run_handler i).2 :: (parallel_search_handlers rest).2) := by
  simp [parallel_search_handlers]

/-- Offer conservation: when every report starts empty, the number of offers
the orchestrator returns equals the sum of the per-report stored result
counts. -/
theorem parallel_length (inputs : List HandlerInput)
    (h : ∀ inp ∈ inputs, inp.report.results = []) :
    (parallel_search_handlers inputs).1.length
      = (((parallel_search_handlers inputs).2).map
          (fun pr => pr.results.length)).sum := by
  induction inputs with
  | nil => simp [parallel_search_handlers]
  | cons i rest ih =>
    rw [parallel_cons]
    simp only [List.length_append, List.map_cons, List.sum_cons]
    rw [run_handler_length i (h i (by simp)),
      ih (fun x hx => h x (by simp [hx]))]

/-- The commit phase never changes any report's stored results. -/
theorem commit_update_results_len (best : ItemResult) (hid : HandlerId)
    (ok : Bool) (reports : List PlatformReport) :
    (commit_report_update best hid ok reports).map
        (fun pr => pr.results.length)
      = reports.map (fun pr => pr.results.length) := by
  have hgen : ∀ (f : PlatformReport → PlatformReport),
      (∀ pr, (f pr).results = pr.results) →
      (reports.map f).map (fun pr => pr.results.length)
        = reports.map (fun pr => pr.results.length) := by
    intro f hf
    rw [List.map_map]
    apply List.map_congr_left
    intro pr _
    simp [Function.comp, hf pr]
  cases ok
  · exact hgen _ (fun pr => by split <;> rfl)
  · exact hgen _ (fun pr => by split <;> rfl)

/-- The full commit phase keeps every report's stored result count. -/
theorem commit_phase_results_len (best_deal : Option ItemResult)
    (bhv : Nat → AttemptResult) (tok : String)
    (reports : List PlatformReport) :
    (agent_commit_phase best_deal bhv tok reports).map
        (fun pr => pr.results.length)
      = reports.map (fun pr => pr.results.length) := by
  rcases best_deal with _ | best
  · rfl
  · rw [agent_commit_phase]
    rcases handler_for_platform best.platform with _ | hid
    · rfl
    · exact commit_update_results_len best hid _ reports

/-- The gather stage conserves offer counts into the per-report result
counts. -/
theorem agent_gather_len (sOut zOut : SearchOutcome) (sMs zMs : ℚ) :
    (agent_gather sOut zOut sMs zMs).1.length
      = (((agent_gather sOut zOut sMs zMs).2).map
          (fun pr => pr.results.length)).sum := by
  have hP : ∀ inp ∈
      [ ({ report := freshReport "SwiggyHandler", outcome := sOut,
           elapsedMs := sMs } : HandlerInput),
        { report := freshReport "ZomatoHandler", outcome := zOut,
          elapsedMs := zMs } ], inp.report.results = ([] : List ItemResult) := by
    intro inp hinp
    rcases List.mem_cons.mp hinp with rfl | h2
    · rfl
    · rcases List.mem_cons.mp h2 with rfl | h3
      · rfl
      · simp at h3
  unfold agent_gather
  dsimp only
  rw [List.length_map, List.map_map]
  have hcomp : ((fun pr => pr.results.length) ∘
      (fun pr : PlatformReport =>
        { pr with results := pr.results.map calculate_discount }))
      = fun pr : PlatformReport => pr.results.length := by
    funext pr; simp
  rw [hcomp]
  exact parallel_length _ hP

/-- The gather stage always produces the two handler reports, in handler
order, named after the handler classes. -/
theorem agent_gather_platforms (sOut zOut : SearchOutcome) (sMs zMs : ℚ) :
    ((agent_gather sOut zOut sMs zMs).2).map (fun pr => pr.platform)
      = ["SwiggyHandler", "ZomatoHandler"] := by
  cases sOut <;> cases zOut <;> rfl

/-- On commit failure, each report matching the winning platform gets the
failure error appended while keeping its platform name. -/
theorem commit_update_error (best : ItemResult) (hid : HandlerId)
    (reports : List PlatformReport) (pr : PlatformReport)
    (hmem : pr ∈ reports)
    (hcond : (!pr.platform.data.isEmpty
        && strContains (lowerStr pr.platform) (lowerStr best.platform))
        = true) :
    ∃ pr' ∈ commit_report_update best hid false reports,
      pr'.platform = pr.platform
        ∧ "Consistent add-to-cart failed" ∈ pr'.errors := by
  have hdef : commit_report_update best hid false reports
      = reports.map (fun pr =>
          if !pr.platform.data.isEmpty
              && strContains (lowerStr pr.platform) (lowerStr best.platform)
          then { pr with errors :=
                  pr.errors ++ ["Consistent add-to-cart failed"] }
          else pr) := rfl
  refine ⟨{ pr with errors := pr.errors ++ ["Consistent add-to-cart failed"] },
    ?_, rfl, by simp⟩
  rw [hdef]
  exact List.mem_map.mpr ⟨pr, hmem, by simp [hcond]⟩

/-! ## Claims -/

/-- C1: calling the commit coordinator in consistency-first mode with
`max_attempts = 3` against an adapter whose verification always returns false
and whose apply never raises invokes the adapter's apply exactly 3 times,
compensates exactly 3 times, records a failure reason on each of the 3
attempts, and returns the failure (EXHAUSTED) outcome. -/
theorem commit_exhausted_three_cycles (tok : String) :
    (add_to_cart_consistent CAPMode.consistency_first
        (fun _ => AttemptResult.applied false) tok 3).1 = false
    ∧ ((add_to_cart_consistent CAPMode.consistency_first
        (fun _ => AttemptResult.applied false) tok 3).2.countP
          CartEvent.isApply) = 3
    ∧ ((add_to_cart_consistent CAPMode.consistency_first
        (fun _ => AttemptResult.applied false) tok 3).2.countP
          CartEvent.isCompensate) = 3
    ∧ ((add_to_cart_consistent CAPMode.consistency_first
        (fun _ => AttemptResult.applied false) tok 3).2.countP
          CartEvent.isFailReason) = 3 :=
  ⟨rfl, rfl, rfl, rfl⟩

/-- C2: in every execution of the commit coordinator, regardless of mode,
each failed verification after a successful apply is followed by exactly one
compensation before the coordinator retries or terminates: positionally, the
event right after every `verify false` is a compensation, and the number of
compensations equals the number of failed verifications. -/
theorem commit_compensates_each_failed_verification (mode : CAPMode)
    (behavior : Nat → AttemptResult) (tok : String) (max_attempts : Nat) :
    (∀ i : Nat,
      ((add_to_cart_consistent mode behavior tok max_attempts).2)[i]?
          = some (CartEvent.verify false) →
      ((add_to_cart_consistent mode behavior tok max_attempts).2)[i + 1]?
          = some CartEvent.compensate)
    ∧ (add_to_cart_consistent mode behavior tok max_attempts).2.countP
          CartEvent.isCompensate
        = (add_to_cart_consistent mode behavior tok max_attempts).2.countP
          CartEvent.isVerifyFalse :=
  cart_loop_compensation mode behavior tok max_attempts 0

/-- C2 witness: the availability-first single-attempt run in which the apply
succeeds and verification fails shows the compensation right after the failed
verification. -/
theorem commit_compensates_witness :
    ((add_to_cart_consistent CAPMode.availability_first
        (fun _ => AttemptResult.applied false) "t" 1).2)[1]?
        = some (CartEvent.verify false)
    ∧ ((add_to_cart_consistent CAPMode.availability_first
        (fun _ => AttemptResult.applied false) "t" 1).2)[2]?
        = some CartEvent.compensate :=
  ⟨rfl,
    (commit_compensates_each_failed_verification CAPMode.availability_first
      (fun _ => AttemptResult.applied false) "t" 1).1 1 rfl⟩

/-- C5: within one invocation of the commit coordinator, the single
idempotency token generated before the first attempt is the token passed to
the adapter's apply operation on every attempt, for all modes, behaviours and
attempt budgets. -/
theorem commit_single_idempotency_token (mode : CAPMode)
    (behavior : Nat → AttemptResult) (tok : String) (max_attempts : Nat)
    (t : String)
    (h : CartEvent.applyCall t
        ∈ (add_to_cart_consistent mode behavior tok max_attempts).2) :
    t = tok :=
  cart_loop_token mode behavior tok max_attempts 0 t h

/-- C5 witness: a three-attempt consistency-first run whose trace contains an
apply event; the theorem forces its token to be the generated one. -/
theorem commit_single_idempotency_token_witness :
    CartEvent.applyCall "token-a"
        ∈ (add_to_cart_consistent CAPMode.consistency_first
            (fun _ => AttemptResult.applied false) "token-a" 3).2
    ∧ "token-a" = "token-a" :=
  ⟨by decide,
    commit_single_idempotency_token CAPMode.consistency_first
      (fun _ => AttemptResult.applied false) "token-a" 3 "token-a" (by decide)⟩

/-- C6 counterexample: an offer whose observed price is 200 (known, positive)
and whose final price is 0 (known) is left with its discount unset by
`calculate_discount`, although the claimed formula would give 100.0: the
Python guard tests truthiness, and a price of `0.0` is falsy. -/
theorem discount_counterexample :
    let r : ItemResult :=
      { restaurant_name := "X", rating := none, item_name := "dish",
        item_price := some 200, final_price := some 0,
        discount_percentage := none, coupon_applied := none,
        platform := "Swiggy" }
    r.item_price = some 200 ∧ r.final_price = some 0
      ∧ (calculate_discount r).discount_percentage = none
      ∧ round2 ((200 - 0) / 200 * 100) = 100 := by
  refine ⟨rfl, rfl, ?_, ?_⟩
  · norm_num [calculate_discount, qTruthy]
  · norm_num [round2, roundHalfEven]

/-- C6 amended: `calculate_discount` sets `discount_percentage` to
`(observed - final) / observed * 100` rounded to 2 decimals whenever both
prices are known and nonzero and the observed price is positive (so observed
200 / final 150 gives exactly 25.0); otherwise it leaves the field unchanged
— in particular, when `final_price` is absent a previously unset discount
stays unset. -/
theorem discount_recompute (r : ItemResult) :
    (∀ p f, r.item_price = some p → r.final_price = some f → f ≠ 0 → 0 < p →
      (calculate_discount r).discount_percentage
        = some (round2 ((p - f) / p * 100)))
    ∧ (r.item_price = none → calculate_discount r = r)
    ∧ (r.final_price = none → calculate_discount r = r)
    ∧ (∀ p f, r.item_price = some p → r.final_price = some f →
        (f = 0 ∨ p ≤ 0) → calculate_discount r = r)
    ∧ ((calculate_discount
        { r with item_price := some 200,
                 final_price := some 150 }).discount_percentage
        = some 25) := by
  refine ⟨?_, ?_, ?_, ?_, ?_⟩
  · intro p f hp hf hf0 hp0
    have hptr : p ≠ 0 := ne_of_gt hp0
    simp [calculate_discount, hp, hf, qTruthy, hf0, hptr, hp0]
  · intro h; simp [calculate_discount, h, qTruthy]
  · intro h; simp [calculate_discount, h, qTruthy]
  · intro p f hp hf hcase
    rcases hcase with h0 | hle
    · simp [calculate_discount, hp, hf, qTruthy, h0]
    · have : ¬ (0 < p) := not_lt.mpr hle
      simp [calculate_discount, hp, hf, qTruthy, this]
  · norm_num [calculate_discount, qTruthy, round2, roundHalfEven]

/-- C6 witness: the amended theorem evaluated at a concrete offer with
observed price 200 and final price 150. -/
theorem discount_recompute_witness :
    (calculate_discount
      { restaurant_name := "X", rating := none, item_name := "dish",
        item_price := some 200, final_price := some 150,
        discount_percentage := some 0, coupon_applied := none,
        platform := "Swiggy" : ItemResult }).discount_percentage
      = some (round2 ((200 - 150) / 200 * 100)) :=
  (discount_recompute _).1 200 150 rfl rfl (by norm_num) (by norm_num)

/-- C8: constructing a `SearchRequest` fails with the validation error
exactly when every supplied item name is blank after stripping (including the
empty list); the failure is surfaced by the front-end flow before the agent
pipeline runs; and a successful construction holds at least one non-empty
item name. -/
theorem search_request_validation (items : List String) (mr : ℚ)
    (pmin pmax : Option ℚ) (mx : Nat) (loc : Option String)
    (sOut zOut : SearchOutcome) (sMs zMs : ℚ)
    (bhv : Nat → AttemptResult) (tok : String) (execT : ℚ) :
    ((∃ e, mkSearchRequest items mr pmin pmax mx loc = Except.error e) ↔
      ∀ s ∈ items, (pyStrip s).data.isEmpty = true)
    ∧ (∀ req, mkSearchRequest items mr pmin pmax mx loc = Except.ok req →
        req.food_items ≠ []
          ∧ ∀ s ∈ req.food_items, s.data.isEmpty = false)
    ∧ ((∀ s ∈ items, (pyStrip s).data.isEmpty = true) →
        main_flow items mr pmin pmax mx loc sOut zOut sMs zMs bhv tok execT
          = Except.error "At least one food item is required") := by
  constructor
  · constructor
    · rintro ⟨e, he⟩ s hs
      by_contra hne
      have hmem : pyStrip s ∈ (items.map pyStrip).filter
          (fun t => !t.data.isEmpty) := by
        refine List.mem_filter.mpr ⟨List.mem_map.mpr ⟨s, hs, rfl⟩, ?_⟩
        simp [Bool.not_eq_true] at hne ⊢
        exact hne
      have hne2 : ((items.map pyStrip).filter
          (fun t => !t.data.isEmpty)).isEmpty = false := by
        cases hfe : ((items.map pyStrip).filter
            (fun t => !t.data.isEmpty)) with
        | nil => rw [hfe] at hmem; simp at hmem
        | cons a l => simp [hfe]
      rw [mkSearchRequest] at he
      simp only [hne2] at he
      simp at he
    · intro hall
      refine ⟨"At least one food item is required", ?_⟩
      rw [mkSearchRequest]
      have : ((items.map pyStrip).filter (fun t => !t.data.isEmpty)) = [] := by
        apply List.filter_eq_nil_iff.mpr
        intro a ha
        obtain ⟨s, hs, rfl⟩ := List.mem_map.mp ha
        simp [hall s hs]
      simp [this]
  constructor
  · intro req hreq
    rw [mkSearchRequest] at hreq
    by_cases hfe : ((items.map pyStrip).filter
        (fun t => !t.data.isEmpty)).isEmpty
    · simp [hfe] at hreq
    · simp only [hfe, if_neg, Bool.false_eq_true, if_false] at hreq
      cases hreq
      constructor
      · intro hnil
        have hnil2 : (List.filter (fun s => !s.data.isEmpty)
            (List.map pyStrip items)) = [] := hnil
        rw [hnil2] at hfe
        simp at hfe
      · intro s hs
        have := (List.mem_filter.mp hs).2
        simpa [Bool.not_eq_true] using this
  · intro hall
    rw [main_flow]
    have : ((items.map pyStrip).filter (fun t => !t.data.isEmpty)) = [] := by
      apply List.filter_eq_nil_iff.mpr
      intro a ha
      obtain ⟨s, hs, rfl⟩ := List.mem_map.mp ha
      simp [hall s hs]
    rw [mkSearchRequest]
    simp [this]

/-- C8 witness: the validation theorem evaluated on a list of two blank
names: construction fails before the agent pipeline runs. -/
theorem search_request_validation_witness :
    (∀ s ∈ ["  ", ""], (pyStrip s).data.isEmpty = true)
    ∧ main_flow ["  ", ""] 4 none none 5 none
        (SearchOutcome.timesOut "" [] 0) (SearchOutcome.timesOut "" [] 0)
        0 0 (fun _ => AttemptResult.applied true) "t" 0
      = Except.error "At least one food item is required" :=
  ⟨by decide,
    (search_request_validation ["  ", ""] 4 none none 5 none
      (SearchOutcome.timesOut "" [] 0) (SearchOutcome.timesOut "" [] 0)
      0 0 (fun _ => AttemptResult.applied true) "t" 0).2.2 (by decide)⟩

/-- C4: the best-offer selection considers only offers with a known final
price and returns the first one with the minimum final price (strictly larger
keys before it, no smaller key anywhere); it returns none on an empty input
or when no final price is known; and whenever some offer has a known final
price the selected offer's final price is at most every known final price. -/
theorem best_offer_selection :
    find_best_deal [] = none
    ∧ (∀ l : List ItemResult, (∀ o ∈ l, o.final_price = none) →
        find_best_deal l = none)
    ∧ (∀ l : List ItemResult, (∃ o ∈ l, o.final_price.isSome) →
        ∃ b pre post, find_best_deal l = some b ∧ b ∈ l
          ∧ b.final_price.isSome
          ∧ l.filter (fun r => r.final_price.isSome) = pre ++ b :: post
          ∧ (∀ x ∈ pre, b.final_price.getD 0 < x.final_price.getD 0)
          ∧ (∀ x ∈ post, b.final_price.getD 0 ≤ x.final_price.getD 0)
          ∧ (∀ o ∈ l, ∀ p, o.final_price = some p →
              b.final_price.getD 0 ≤ p)) := by
  refine ⟨rfl, ?_, ?_⟩
  · intro l h
    cases l with
    | nil => rfl
    | cons hd tl =>
      have hf : (hd :: tl).filter (fun r => r.final_price.isSome) = [] := by
        apply List.filter_eq_nil_iff.mpr
        intro a ha
        simp [h a ha]
      simp [find_best_deal, hf]
  · intro l hex
    obtain ⟨o, ho, hos⟩ := hex
    cases l with
    | nil => simp at ho
    | cons hd tl =>
      have hoF : o ∈ (hd :: tl).filter (fun r => r.final_price.isSome) :=
        List.mem_filter.mpr ⟨ho, hos⟩
      cases hF : (hd :: tl).filter (fun r => r.final_price.isSome) with
      | nil => rw [hF] at hoF; simp at hoF
      | cons v vs =>
        obtain ⟨pre, post, hdec, hpre, hpost⟩ :=
          pyMinBy_decomp (fun r => r.final_price.getD 0) vs v
        refine ⟨pyMinBy (fun r => r.final_price.getD 0) v vs, pre, post,
          ?_, ?_, ?_, ?_, hpre, hpost, ?_⟩
        · simp [find_best_deal, hF]
        · have hmem : pyMinBy (fun r => r.final_price.getD 0) v vs
              ∈ (hd :: tl).filter (fun r => r.final_price.isSome) := by
            rw [hF, hdec]
            exact List.mem_append.mpr (Or.inr (List.mem_cons_self _ _))
          exact List.mem_of_mem_filter hmem
        · have hmem : pyMinBy (fun r => r.final_price.getD 0) v vs
              ∈ (hd :: tl).filter (fun r => r.final_price.isSome) := by
            rw [hF, hdec]
            exact List.mem_append.mpr (Or.inr (List.mem_cons_self _ _))
          exact (List.mem_filter.mp hmem).2
        · exact hF ▸ hdec
        · intro o2 ho2 p hp
          have ho2F : o2 ∈ (hd :: tl).filter (fun r => r.final_price.isSome) :=
            List.mem_filter.mpr ⟨ho2, by simp [hp]⟩
          rw [hF, hdec] at ho2F
          have hkey : o2.final_price.getD 0 = p := by simp [hp]
          rcases List.mem_append.mp ho2F with hin | hin
          · exact hkey ▸ le_of_lt (hpre o2 hin)
          · rcases List.mem_cons.mp hin with rfl | hin2
            · exact hkey ▸ le_refl _
            · exact hkey ▸ hpost o2 hin2

/-- C4 witness: the selection theorem applied to a concrete two-offer list in
which only one offer has a known final price. -/
theorem best_offer_selection_witness :
    ∃ b pre post,
      find_best_deal [bestWitnessB, bestWitnessA] = some b
        ∧ b ∈ [bestWitnessB, bestWitnessA]
        ∧ b.final_price.isSome
        ∧ [bestWitnessB, bestWitnessA].filter (fun r => r.final_price.isSome)
            = pre ++ b :: post
        ∧ (∀ x ∈ pre, b.final_price.getD 0 < x.final_price.getD 0)
        ∧ (∀ x ∈ post, b.final_price.getD 0 ≤ x.final_price.getD 0)
        ∧ (∀ o ∈ [bestWitnessB, bestWitnessA], ∀ p, o.final_price = some p →
            b.final_price.getD 0 ≤ p) :=
  best_offer_selection.2.2 [bestWitnessB, bestWitnessA]
    ⟨bestWitnessA, by simp, by simp [bestWitnessA]⟩

/-- C10: in both handlers' card processing, the minimum-rating gate rejects a
card only when the extracted rating is truthy (present and nonzero) and
strictly below the requested minimum; an absent rating and a rating of
exactly 0 are never rejected by it — the card decision is then independent of
the requested minimum rating, and with no extracted price such cards reach
the results on both platforms. -/
theorem rating_filter_truthiness :
    (∀ m : ℚ, rating_filter_rejects m none = false)
    ∧ (∀ m : ℚ, rating_filter_rejects m (some 0) = false)
    ∧ (∀ m r : ℚ, rating_filter_rejects m (some r) = true ↔ r ≠ 0 ∧ r < m)
    ∧ (∀ (req : SearchRequest) (m' : ℚ) (name : String) (price : Option ℚ)
        (url : Option String) (fi : String) (rating : Option ℚ),
        rating = none ∨ rating = some 0 →
        swiggy_process_card { req with min_rating := m' } name rating price
            url fi
          = swiggy_process_card req name rating price url fi
        ∧ zomato_process_card { req with min_rating := m' } name rating price
            url fi
          = zomato_process_card req name rating price url fi)
    ∧ (∀ (req : SearchRequest) (name : String) (url : Option String)
        (fi : String) (rating : Option ℚ),
        rating = none ∨ rating = some 0 →
        (swiggy_process_card req name rating none url fi).isSome = true
        ∧ (zomato_process_card req name rating none url fi).isSome = true) := by
  refine ⟨?_, ?_, ?_, ?_, ?_⟩
  · intro m; simp [rating_filter_rejects, qTruthy]
  · intro m; simp [rating_filter_rejects, qTruthy]
  · intro m r
    simp [rating_filter_rejects, qTruthy, bne_iff_ne, and_comm]
  · intro req m' name price url fi rating h
    rcases h with rfl | rfl
    · constructor <;>
        simp [swiggy_process_card, zomato_process_card, process_card,
          rating_filter_rejects, qTruthy, price_filter_rejects]
    · constructor <;>
        simp [swiggy_process_card, zomato_process_card, process_card,
          rating_filter_rejects, qTruthy, price_filter_rejects]
  · intro req name url fi rating h
    rcases h with rfl | rfl
    · constructor <;>
        simp [swiggy_process_card, zomato_process_card, process_card,
          rating_filter_rejects, qTruthy, price_filter_rejects]
    · constructor <;>
        simp [swiggy_process_card, zomato_process_card, process_card,
          rating_filter_rejects, qTruthy, price_filter_rejects]

/-- C10 witness: a concrete unrated card passes through to the results on
both platforms under a high minimum rating. -/
theorem rating_filter_truthiness_witness :
    ((none : Option ℚ) = none ∨ (none : Option ℚ) = some 0)
    ∧ ((swiggy_process_card { food_items := ["pizza"], min_rating := 5 }
          "R" none none none "pizza").isSome = true
        ∧ (zomato_process_card { food_items := ["pizza"], min_rating := 5 }
          "R" none none none "pizza").isSome = true) :=
  ⟨Or.inl rfl,
    rating_filter_truthiness.2.2.2.2
      { food_items := ["pizza"], min_rating := 5 } "R" none "pizza" none
      (Or.inl rfl)⟩

/-- C3: for any adapter list, a timed-out adapter's report is marked
unavailable with a timeout error appended and contributes zero offers; an
adapter that raises is marked unavailable with the failure message appended
and contributes zero offers; every completing adapter's offers are all
collected into the returned list; and in the concrete two-adapter scenario
where A completes with 2 offers and B times out, the run returns exactly A's
2 offers. -/
theorem orchestrator_failure_isolation :
    (∀ (inp : HandlerInput) (msg : String) (errs : List String) (succ : Nat),
        inp.outcome = SearchOutcome.timesOut msg errs succ →
        (run_handler inp).1 = []
          ∧ (run_handler inp).2.available = false
          ∧ ("Timeout: " ++ msg) ∈ (run_handler inp).2.errors)
    ∧ (∀ (inp : HandlerInput) (msg : String) (errs : List String) (succ : Nat),
        inp.outcome = SearchOutcome.fails msg errs succ →
        (run_handler inp).1 = []
          ∧ (run_handler inp).2.available = false
          ∧ msg ∈ (run_handler inp).2.errors)
    ∧ (∀ (inputs : List HandlerInput) (inp : HandlerInput), inp ∈ inputs →
        ∀ (offers : List ItemResult) (errs : List String) (succ : Nat),
          inp.outcome = SearchOutcome.completes offers errs succ →
          ∀ o ∈ offers, o ∈ (parallel_search_handlers inputs).1)
    ∧ (∀ (rA rB : PlatformReport) (o1 o2 : ItemResult) (msg : String)
        (e1 e2 : ℚ),
        (parallel_search_handlers
          [ { report := rA, outcome := SearchOutcome.completes [o1, o2] [] 0,
              elapsedMs := e1 },
            { report := rB, outcome := SearchOutcome.timesOut msg [] 0,
              elapsedMs := e2 } ]).1 = [o1, o2]) := by
  refine ⟨?_, ?_, ?_, ?_⟩
  · intro inp msg errs succ hout
    refine ⟨?_, ?_, ?_⟩ <;> simp [run_handler, hout]
  · intro inp msg errs succ hout
    refine ⟨?_, ?_, ?_⟩ <;> simp [run_handler, hout]
  · intro inputs inp hin offers errs succ hout o ho
    have hfst : (run_handler inp).1 = offers := by simp [run_handler, hout]
    apply List.mem_flatten.mpr
    refine ⟨offers, ?_, ho⟩
    show offers ∈ (inputs.map run_handler).map Prod.fst
    rw [List.map_map]
    exact List.mem_map.mpr ⟨inp, hin, by simp [hfst]⟩
  · intro rA rB o1 o2 msg e1 e2
    show ([o1, o2] ++ ([] ++ [])) = [o1, o2]
    simp

/-- C3 witness: the timeout branch evaluated on a concrete handler input. -/
theorem orchestrator_failure_isolation_witness :
    (run_handler { report := freshReport "SwiggyHandler",
                   outcome := SearchOutcome.timesOut "" [] 0,
                   elapsedMs := 0 }).1 = []
    ∧ (run_handler { report := freshReport "SwiggyHandler",
                     outcome := SearchOutcome.timesOut "" [] 0,
                     elapsedMs := 0 }).2.available = false
    ∧ ("Timeout: " ++ "")
        ∈ (run_handler { report := freshReport "SwiggyHandler",
                         outcome := SearchOutcome.timesOut "" [] 0,
                         elapsedMs := 0 }).2.errors :=
  orchestrator_failure_isolation.1
    { report := freshReport "SwiggyHandler",
      outcome := SearchOutcome.timesOut "" [] 0, elapsedMs := 0 } "" [] 0 rfl

/-- C7: for every completed run, the aggregate report's `total_options`
equals the sum over all platform reports of the length of that report's
results list. -/
theorem total_options_matches_reports (req : SearchRequest)
    (sOut zOut : SearchOutcome) (sMs zMs : ℚ) (bhv : Nat → AttemptResult)
    (tok : String) (execT : ℚ) :
    (agent_run req sOut zOut sMs zMs bhv tok execT).total_options
      = ((agent_run req sOut zOut sMs zMs bhv tok execT).platform_reports.map
          (fun pr => pr.results.length)).sum := by
  show (agent_gather sOut zOut sMs zMs).1.length
      = ((agent_commit_phase
            (find_best_deal (agent_gather sOut zOut sMs zMs).1) bhv tok
            (agent_gather sOut zOut sMs zMs).2).map
          (fun pr => pr.results.length)).sum
  rw [commit_phase_results_len]
  exact agent_gather_len sOut zOut sMs zMs

/-- C9: the process exit status is zero exactly when at least one offer was
found; the offer count and exit status are unaffected by the commit
behaviour; and a failed consistency-first commit is recorded as an error
entry on the report matching the winning offer's platform while the run
still returns its report. -/
theorem exit_status_reflects_offers (req : SearchRequest)
    (sOut zOut : SearchOutcome) (sMs zMs : ℚ) (bhv : Nat → AttemptResult)
    (tok : String) (execT : ℚ) :
    (exit_code (agent_run req sOut zOut sMs zMs bhv tok execT) = 0
      ↔ 0 < (agent_run req sOut zOut sMs zMs bhv tok execT).total_options)
    ∧ (∀ bhv' : Nat → AttemptResult,
        (agent_run req sOut zOut sMs zMs bhv' tok execT).total_options
          = (agent_run req sOut zOut sMs zMs bhv tok execT).total_options
        ∧ exit_code (agent_run req sOut zOut sMs zMs bhv' tok execT)
          = exit_code (agent_run req sOut zOut sMs zMs bhv tok execT))
    ∧ (∀ best : ItemResult,
        (agent_run req sOut zOut sMs zMs bhv tok execT).best_deal = some best →
        best.platform = "Swiggy" ∨ best.platform = "Zomato" →
        (add_to_cart_consistent CAPMode.consistency_first bhv tok 3).1
          = false →
        ∃ pr ∈ (agent_run req sOut zOut sMs zMs bhv tok
            execT).platform_reports,
          strContains (lowerStr pr.platform) (lowerStr best.platform) = true
            ∧ "Consistent add-to-cart failed" ∈ pr.errors) := by
  refine ⟨?_, ?_, ?_⟩
  · by_cases h : 0 < (agent_run req sOut zOut sMs zMs bhv tok
        execT).total_options
    · simp [exit_code, h]
    · simp [exit_code, h]
  · intro bhv'
    exact ⟨rfl, rfl⟩
  · intro best hbest hplat hfail
    have hbd : find_best_deal (agent_gather sOut zOut sMs zMs).1 = some best :=
      hbest
    have hmemplat : "SwiggyHandler"
        ∈ ((agent_gather sOut zOut sMs zMs).2).map (fun pr => pr.platform)
        ∧ "ZomatoHandler"
        ∈ ((agent_gather sOut zOut sMs zMs).2).map (fun pr => pr.platform) := by
      rw [agent_gather_platforms]
      simp
    rcases hplat with hp | hp
    · have hhid : handler_for_platform best.platform
          = some HandlerId.swiggy := by
        rw [hp]; rfl
      have hreports : (agent_run req sOut zOut sMs zMs bhv tok
            execT).platform_reports
          = commit_report_update best HandlerId.swiggy false
              (agent_gather sOut zOut sMs zMs).2 := by
        show agent_commit_phase
            (find_best_deal (agent_gather sOut zOut sMs zMs).1) bhv tok
            (agent_gather sOut zOut sMs zMs).2 = _
        rw [hbd]
        simp [agent_commit_phase, hhid, hfail]
      obtain ⟨pr, hprmem, hprplat⟩ := List.mem_map.mp hmemplat.1
      have hcond : (!pr.platform.data.isEmpty
          && strContains (lowerStr pr.platform) (lowerStr best.platform))
          = true := by
        rw [hprplat, hp]; decide
      obtain ⟨pr', hpr'mem, hpr'plat, hpr'err⟩ :=
        commit_update_error best HandlerId.swiggy _ pr hprmem hcond
      refine ⟨pr', by rw [hreports]; exact hpr'mem, ?_, hpr'err⟩
      rw [hpr'plat, hprplat, hp]; decide
    · have hhid : handler_for_platform best.platform
          = some HandlerId.zomato := by
        rw [hp]; rfl
      have hreports : (agent_run req sOut zOut sMs zMs bhv tok
            execT).platform_reports
          = commit_report_update best HandlerId.zomato false
              (agent_gather sOut zOut sMs zMs).2 := by
        show agent_commit_phase
            (find_best_deal (agent_gather sOut zOut sMs zMs).1) bhv tok
            (agent_gather sOut zOut sMs zMs).2 = _
        rw [hbd]
        simp [agent_commit_phase, hhid, hfail]
      obtain ⟨pr, hprmem, hprplat⟩ := List.mem_map.mp hmemplat.2
      have hcond : (!pr.platform.data.isEmpty
          && strContains (lowerStr pr.platform) (lowerStr best.platform))
          = true := by
        rw [hprplat, hp]; decide
      obtain ⟨pr', hpr'mem, hpr'plat, hpr'err⟩ :=
        commit_update_error best HandlerId.zomato _ pr hprmem hcond
      refine ⟨pr', by rw [hreports]; exact hpr'mem, ?_, hpr'err⟩
      rw [hpr'plat, hprplat, hp]; decide

/-- C9 witness: a run finding one Swiggy offer whose consistency-first commit
fails records the commit error on the Swiggy report. -/
theorem exit_status_reflects_offers_witness :
    ∃ pr ∈ (agent_run { food_items := ["pizza"] }
        (SearchOutcome.completes [exitWitnessOffer] [] 0)
        (SearchOutcome.timesOut "" [] 0) 0 0
        (fun _ => AttemptResult.applied false) "t" 0).platform_reports,
      strContains (lowerStr pr.platform) (lowerStr exitWitnessOffer.platform)
          = true
        ∧ "Consistent add-to-cart failed" ∈ pr.errors :=
  (exit_status_reflects_offers { food_items := ["pizza"] }
    (SearchOutcome.completes [exitWitnessOffer] [] 0)
    (SearchOutcome.timesOut "" [] 0) 0 0
    (fun _ => AttemptResult.applied false) "t" 0).2.2 exitWitnessOffer
    rfl (Or.inl rfl) rfl
